import Mathlib

/-!
Verification of the tag value conversion subsystem of cyexiv2 (a Python
binding for the exiv2 image-metadata library).  The pyexiv2 package sources
are not shipped in this tree (only the test suite is), so the conversion
functions are modelled from the repository's specification, with the
behaviour pinned down by the assertions of the test suite wherever the two
disagree.  Strings are embedded as lists of characters; Python `Fraction`
values are embedded as `ℚ` (both are normalised rationals); Python
exceptions are embedded as explicit error values in `Except` results.
-/

deriving instance DecidableEq for Except

namespace Cyexiv2

/-! ## Decimal digit printing and parsing

Models Python's `'%d' % n` formatting and `int(text)` / `Fraction(text)`
digit parsing, which the conversion subsystem uses for every numeric wire
form. -/

/-- Character for a single decimal digit value. -/
def digitChar (d : Nat) : Char := Char.ofNat (48 + d)

/-- Numeric value of a decimal digit character, `none` for any other
character (models the "only ASCII digits" rule of the strict parsers). -/
def digitVal (c : Char) : Option Nat :=
  if 48 ≤ c.toNat ∧ c.toNat ≤ 57 then some (c.toNat - 48) else none

/-- Fuel-driven digit printer; the fuel is an upper bound on the number,
kept explicit so that the definition reduces inside the kernel. -/
def natDigitsAux : Nat → Nat → List Char
  | 0, _ => []
  | fuel + 1, n =>
    if n < 10 then [digitChar n]
    else natDigitsAux fuel (n / 10) ++ [digitChar (n % 10)]

/-- Big-endian decimal digit string of a natural number, as printed by
Python's `'%d'` formatting (no sign, no padding, `0` prints as `"0"`). -/
def natDigits (n : Nat) : List Char := natDigitsAux (n + 1) n

theorem natDigitsAux_congr : ∀ n f1 f2, n < f1 → n < f2 →
    natDigitsAux f1 n = natDigitsAux f2 n := by
  intro n
  induction n using Nat.strong_induction_on with
  | _ n ih =>
    intro f1 f2 h1 h2
    match f1, f2 with
    | g1 + 1, g2 + 1 =>
      show (if n < 10 then [digitChar n]
            else natDigitsAux g1 (n / 10) ++ [digitChar (n % 10)])
          = (if n < 10 then [digitChar n]
             else natDigitsAux g2 (n / 10) ++ [digitChar (n % 10)])
      split
      · rfl
      · have hlt : n / 10 < n := Nat.div_lt_self (by omega) (by omega)
        rw [ih (n / 10) hlt g1 g2 (by omega) (by omega)]

/-- Unfolding equation for `natDigits`, mirroring the usual recursive
presentation of decimal printing. -/
theorem natDigits_eq (n : Nat) :
    natDigits n = if n < 10 then [digitChar n]
                  else natDigits (n / 10) ++ [digitChar (n % 10)] := by
  show (if n < 10 then [digitChar n]
        else natDigitsAux n (n / 10) ++ [digitChar (n % 10)]) = _
  split
  · rfl
  · have hlt : n / 10 < n := Nat.div_lt_self (by omega) (by omega)
    rw [natDigitsAux_congr (n / 10) n (n / 10 + 1) (by omega) (by omega)]
    rfl

/-- Decimal digit string of an integer: a leading minus sign for negative
values, then the digits (models Python's `'%d'` on an `int`). -/
def intToStr (i : Int) : List Char :=
  if i < 0 then '-' :: natDigits i.natAbs else natDigits i.toNat

/-- Accumulating decimal parser: consumes the whole character list, failing
on the first non-digit (models the digit-run part of Python's `int`). -/
def parseNatAux : List Char → Nat → Option Nat
  | [], acc => some acc
  | c :: cs, acc =>
    match digitVal c with
    | some d => parseNatAux cs (acc * 10 + d)
    | none => none

/-- Strict unsigned decimal parser: one or more ASCII digits and nothing
else (models Python's `int(text)` on an unsigned field: no sign, no
whitespace, no grouping). -/
def parseNat (cs : List Char) : Option Nat :=
  match cs with
  | [] => none
  | _ => parseNatAux cs 0

/-- Strict signed decimal parser: an optional leading `+` or `-` sign
followed by one or more ASCII digits (models Python's `int(text)` as used
for numerators). -/
def parseSigned (cs : List Char) : Option Int :=
  match cs with
  | [] => none
  | c :: rest =>
    if c = '-' then (parseNat rest).map (fun n => -(n : Int))
    else if c = '+' then (parseNat rest).map (fun n => (n : Int))
    else (parseNat cs).map (fun n => (n : Int))

theorem digitVal_digitChar (d : Nat) (h : d ≤ 9) : digitVal (digitChar d) = some d := by
  interval_cases d <;> decide

theorem digitChar_toNat (d : Nat) (h : d ≤ 9) : (digitChar d).toNat = 48 + d := by
  interval_cases d <;> decide

theorem natDigits_ne_nil (n : Nat) : natDigits n ≠ [] := by
  rw [natDigits_eq]
  split <;> simp

theorem natDigits_mem_digit (n : Nat) :
    ∀ c ∈ natDigits n, 48 ≤ c.toNat ∧ c.toNat ≤ 57 := by
  induction n using Nat.strong_induction_on with
  | _ n ih =>
    rw [natDigits_eq]
    split
    · intro c hc
      simp only [List.mem_singleton] at hc
      subst hc
      rw [digitChar_toNat n (by omega)]
      omega
    · intro c hc
      rcases List.mem_append.mp hc with h1 | h2
      · exact ih (n / 10) (Nat.div_lt_self (by omega) (by omega)) c h1
      · simp only [List.mem_singleton] at h2
        subst h2
        rw [digitChar_toNat (n % 10) (by omega)]
        omega

theorem parseNatAux_append (xs ys : List Char) (acc : Nat) :
    parseNatAux (xs ++ ys) acc =
      (parseNatAux xs acc).bind (fun a => parseNatAux ys a) := by
  induction xs generalizing acc with
  | nil => simp [parseNatAux]
  | cons c cs ih =>
    simp only [List.cons_append, parseNatAux]
    cases digitVal c with
    | none => simp
    | some d => simp [ih]

theorem parseNatAux_natDigits (n : Nat) :
    ∀ acc : Nat, parseNatAux (natDigits n) acc =
      some (acc * 10 ^ (natDigits n).length + n) := by
  induction n using Nat.strong_induction_on with
  | _ n ih =>
    intro acc
    rw [natDigits_eq]
    split
    · simp [parseNatAux, digitVal_digitChar n (by omega)]
    · rw [parseNatAux_append, ih (n / 10) (Nat.div_lt_self (by omega) (by omega)) acc]
      simp only [Option.some_bind, parseNatAux, digitVal_digitChar (n % 10) (by omega),
        List.length_append, List.length_singleton, Option.some.injEq]
      have h2 : n / 10 * 10 + n % 10 = n := by omega
      generalize (natDigits (n / 10)).length = L
      rw [pow_succ]
      have h3 : (acc * 10 ^ L + n / 10) * 10 + n % 10
          = acc * (10 ^ L * 10) + (n / 10 * 10 + n % 10) := by ring
      rw [h3, h2]

theorem parseNat_natDigits (n : Nat) : parseNat (natDigits n) = some n := by
  have hx : parseNat (natDigits n) = parseNatAux (natDigits n) 0 := by
    cases h : natDigits n with
    | nil => exact absurd h (natDigits_ne_nil n)
    | cons c cs =>
        rw [parseNat]
        simp
  rw [hx, parseNatAux_natDigits n 0]
  simp

/-- Character list of a string literal, for readable statements. -/
def chars (s : String) : List Char := s.data

theorem natDigits_eq_single_zero (n : Nat) (h : natDigits n = ['0']) : n = 0 := by
  rw [natDigits_eq] at h
  split at h
  · have h1 : digitChar n = '0' := by simpa using h
    have h2 := digitChar_toNat n (by omega)
    rw [h1] at h2
    simp at h2
    omega
  · have hlen := congrArg List.length h
    have hne := natDigits_ne_nil (n / 10)
    have hne2 := List.length_pos.mpr hne
    simp only [List.length_append, List.length_singleton] at hlen
    omega

theorem intToStr_eq_single_zero (i : Int) (h : intToStr i = ['0']) : i = 0 := by
  rw [intToStr] at h
  split at h
  · have : '-' = '0' ∧ natDigits i.natAbs = [] := by
      constructor
      · exact List.head_eq_of_cons_eq h
      · exact List.tail_eq_of_cons_eq h
    exact absurd this.2 (natDigits_ne_nil _)
  · have := natDigits_eq_single_zero _ h
    omega

theorem parseSigned_intToStr (i : Int) : parseSigned (intToStr i) = some i := by
  by_cases hneg : i < 0
  · rw [intToStr, if_pos hneg]
    have h1 : ((i.natAbs : Int)) = -i := by omega
    simp [parseSigned, parseNat_natDigits, h1]
  · rw [intToStr, if_neg hneg]
    obtain ⟨c, cs, hcons⟩ : ∃ c cs, natDigits i.toNat = c :: cs := by
      cases h : natDigits i.toNat with
      | nil => exact absurd h (natDigits_ne_nil _)
      | cons c cs => exact ⟨c, cs, rfl⟩
    have hdig := natDigits_mem_digit i.toNat c (hcons ▸ List.mem_cons_self c cs)
    rw [hcons, parseSigned]
    have hc1 : ¬c = '-' := by
      intro h
      rw [h] at hdig
      simp at hdig
    have hc2 : ¬c = '+' := by
      intro h
      rw [h] at hdig
      simp at hdig
    rw [if_neg hc1, if_neg hc2, ← hcons, parseNat_natDigits]
    simp
    omega

theorem intToStr_mem_ne_slash (i : Int) : ∀ c ∈ intToStr i, (c != '/') = true := by
  intro c hc
  rw [intToStr] at hc
  have hdig : 48 ≤ c.toNat ∧ c.toNat ≤ 57 ∨ c = '-' := by
    split at hc
    · rcases List.mem_cons.mp hc with h | h
      · right; exact h
      · left; exact natDigits_mem_digit _ c h
    · left; exact natDigits_mem_digit _ c hc
  rcases hdig with ⟨h1, h2⟩ | h
  · simp only [bne_iff_ne, ne_eq]
    intro heq
    rw [heq] at h1
    simp at h1
  · rw [h]
    decide

theorem takeWhile_append_slash (xs ys : List Char)
    (h : ∀ c ∈ xs, (c != '/') = true) :
    (xs ++ '/' :: ys).takeWhile (fun c => c != '/') = xs ∧
    (xs ++ '/' :: ys).dropWhile (fun c => c != '/') = '/' :: ys := by
  induction xs with
  | nil => simp [List.takeWhile, List.dropWhile]
  | cons c cs ih =>
    have hc := h c (List.mem_cons_self c cs)
    have hcs : ∀ a ∈ cs, (a != '/') = true := fun a ha => h a (List.mem_cons_of_mem c ha)
    obtain ⟨ih1, ih2⟩ := ih hcs
    constructor
    · simp [List.takeWhile_cons, hc, ih1]
    · simp [List.dropWhile_cons, hc, ih2]

/-! ## Rational values

Models pyexiv2.utils: `make_fraction` (construction of a `Fraction` from a
pair of integers or from a wire string), `fraction_to_string`, and the
Rational/SRational converters of the Exif and Xmp tag families that are
built on them. -/

/-- Python exceptions observed by the conversion subsystem, as an explicit
error enumeration.  Distinct constructors model distinct Python exception
classes. -/
inductive PyError
  | exifValueError
  | iptcValueError
  | xmpValueError
  | typeError
  | valueError
  | zeroDivisionError
  | indexError
  | notImplementedError
deriving DecidableEq

/-- Splits a rational wire text at the first `/` into a signed numerator
and an unsigned denominator (models the `N/D` grammar accepted by Python's
`Fraction(text)`: a sign is permitted only on the numerator and no
whitespace is accepted around the slash). -/
def parseFracPair (cs : List Char) : Option (Int × Nat) :=
  let np := cs.takeWhile (fun c => c != '/')
  match cs.dropWhile (fun c => c != '/') with
  | [] => none
  | _ :: denPart =>
    match parseSigned np, parseNat denPart with
    | some n, some d => some (n, d)
    | _, _ => none

/-- Modelled from the spec: `make_fraction(text)` in the missing module
pyexiv2/utils.py.  Builds a rational from a `"N/D"` wire string; a zero
denominator fails with the dedicated ZeroDivisionError and any other
malformed text fails with ValueError.  The repository's test suite
additionally pins a special case: the exact text `"0/0"` is accepted and
yields the fraction 0/1. -/
def make_fraction_str (cs : List Char) : Except PyError ℚ :=
  if cs = chars "0/0" then .ok 0
  else
    match parseFracPair cs with
    | none => .error .valueError
    | some (n, d) =>
      if d = 0 then .error .zeroDivisionError else .ok ((n : ℚ) / (d : ℚ))

/-- Modelled from the spec: `make_fraction(num, den)` in the missing module
pyexiv2/utils.py.  Builds a rational from two integers; a zero denominator
fails with the dedicated ZeroDivisionError. -/
def make_fraction_ints (n d : Int) : Except PyError ℚ :=
  if d = 0 then .error .zeroDivisionError else .ok ((n : ℚ) / (d : ℚ))

/-- Possible shapes of the single argument of `make_fraction`. -/
inductive FracArg
  | str (cs : List Char)
  | frac (q : ℚ)
  | other

/-- Modelled from the spec: the one-argument form of `make_fraction`
dispatching on the argument's runtime type; a non-string non-rational
argument fails with TypeError. -/
def make_fraction1 : FracArg → Except PyError ℚ
  | .str cs => make_fraction_str cs
  | .frac q => .ok q
  | .other => .error .typeError

/-- Modelled from the spec: `fraction_to_string` in the missing module
pyexiv2/utils.py: prints a rational as `"N/D"` from its normalised
numerator and denominator. -/
def fraction_to_string (q : ℚ) : List Char :=
  intToStr q.num ++ '/' :: natDigits q.den

/-- Modelled from the spec: the Exif SRational converter of the missing
module pyexiv2/exif.py: the wire text is handed to `make_fraction` and any
failure is re-raised as the family's ExifValueError. -/
def exif_decode_srational (cs : List Char) : Except PyError ℚ :=
  match make_fraction_str cs with
  | .error _ => .error .exifValueError
  | .ok q => .ok q

/-- Modelled from the spec: the Exif Rational (unsigned) converter of the
missing module pyexiv2/exif.py: like SRational, but a negative numerator is
additionally rejected with ExifValueError. -/
def exif_decode_rational (cs : List Char) : Except PyError ℚ :=
  match make_fraction_str cs with
  | .error _ => .error .exifValueError
  | .ok q => if q.num < 0 then .error .exifValueError else .ok q

/-- Modelled from the spec: the Xmp Rational converter of the missing
module pyexiv2/xmp.py: the wire text is handed to `make_fraction` and any
failure is re-raised as the family's XmpValueError (signed values are
accepted). -/
def xmp_decode_rational (cs : List Char) : Except PyError ℚ :=
  match make_fraction_str cs with
  | .error _ => .error .xmpValueError
  | .ok q => .ok q

theorem intToStr_ne_nil (i : Int) : intToStr i ≠ [] := by
  rw [intToStr]
  split
  · simp
  · exact natDigits_ne_nil _

theorem fraction_to_string_ne_00 (q : ℚ) : fraction_to_string q ≠ chars "0/0" := by
  intro h
  have hrhs : chars "0/0" = ['0'] ++ '/' :: ['0'] := rfl
  rw [fraction_to_string, hrhs] at h
  have hlen := congrArg List.length h
  have h1 := List.length_pos.mpr (intToStr_ne_nil q.num)
  have h2 := List.length_pos.mpr (natDigits_ne_nil q.den)
  simp only [List.length_append, List.length_cons, List.length_singleton,
    List.length_nil] at hlen
  have hd1 : (natDigits q.den).length = 1 := by omega
  have hsuffix : ('/' :: natDigits q.den).length = ('/' :: ['0']).length := by
    simp [hd1]
  obtain ⟨-, htl⟩ := List.append_inj' h hsuffix
  have : natDigits q.den = ['0'] := List.tail_eq_of_cons_eq htl
  exact q.den_nz (natDigits_eq_single_zero _ this)

theorem make_fraction_str_roundtrip (q : ℚ) :
    make_fraction_str (fraction_to_string q) = .ok q := by
  obtain ⟨ht, hd⟩ := takeWhile_append_slash (intToStr q.num) (natDigits q.den)
    (intToStr_mem_ne_slash q.num)
  have hp : parseFracPair (fraction_to_string q) = some (q.num, q.den) := by
    simp only [parseFracPair, fraction_to_string, ht, hd,
      parseSigned_intToStr, parseNat_natDigits]
  rw [make_fraction_str, if_neg (fraction_to_string_ne_00 q), hp]
  show (if q.den = 0 then Except.error PyError.zeroDivisionError
        else Except.ok ((q.num : ℚ) / (q.den : ℚ))) = Except.ok q
  rw [if_neg q.den_nz, Rat.num_div_den]

theorem parseNat_neg_head (cs : List Char) : parseNat ('-' :: cs) = none := by
  rw [parseNat]
  · simp [parseNatAux, digitVal]
  · simp

theorem make_fraction_str_neg_den (n : Int) (d : Nat) :
    make_fraction_str (intToStr n ++ '/' :: '-' :: natDigits d)
      = .error .valueError := by
  obtain ⟨ht, hd⟩ := takeWhile_append_slash (intToStr n) ('-' :: natDigits d)
    (intToStr_mem_ne_slash n)
  have hne : intToStr n ++ '/' :: '-' :: natDigits d ≠ chars "0/0" := by
    intro h
    have hlen := congrArg List.length h
    have h1 := List.length_pos.mpr (intToStr_ne_nil n)
    have h2 := List.length_pos.mpr (natDigits_ne_nil d)
    simp only [chars, List.length_append, List.length_cons] at hlen
    simp at hlen
    omega
  have hp : parseFracPair (intToStr n ++ '/' :: '-' :: natDigits d) = none := by
    simp only [parseFracPair, ht, hd, parseSigned_intToStr, parseNat_neg_head]
  rw [make_fraction_str, if_neg hne, hp]

/-- C9: for every rational pair (num, den) with den ≠ 0 that is valid for a
given rational kind (non-negative numerator required for the unsigned Exif
Rational kind), encoding the pair to the wire text "num/den" and decoding it
back yields an equal rational value, for the signed Exif SRational kind, the
signed Xmp Rational kind, and the unsigned Exif Rational kind. -/
theorem claimC9_rational_encode_decode_roundtrip (n : Int) (d : Nat) (hd : d ≠ 0) :
    exif_decode_srational (fraction_to_string (mkRat n d)) = .ok (mkRat n d)
    ∧ xmp_decode_rational (fraction_to_string (mkRat n d)) = .ok (mkRat n d)
    ∧ (0 ≤ n →
        exif_decode_rational (fraction_to_string (mkRat n d)) = .ok (mkRat n d)) := by
  have h := make_fraction_str_roundtrip (mkRat n d)
  refine ⟨?_, ?_, fun hn => ?_⟩
  · unfold exif_decode_srational
    rw [h]
  · unfold xmp_decode_rational
    rw [h]
  · unfold exif_decode_rational
    rw [h]
    have hq : (0 : ℚ) ≤ mkRat n d := by
      rw [Rat.mkRat_eq_div]
      exact div_nonneg (by exact_mod_cast hn) (by positivity)
    have hnum : ¬(mkRat n d).num < 0 := not_lt.mpr (Rat.num_nonneg.mpr hq)
    show (if (mkRat n d).num < 0 then Except.error PyError.exifValueError
          else Except.ok (mkRat n d)) = Except.ok (mkRat n d)
    rw [if_neg hnum]

/-- Witness for C9 at the concrete pair 5/3. -/
theorem claimC9_witness :
    (3 : Nat) ≠ 0 ∧
    (exif_decode_srational (fraction_to_string (mkRat 5 3)) = .ok (mkRat 5 3)
     ∧ xmp_decode_rational (fraction_to_string (mkRat 5 3)) = .ok (mkRat 5 3)
     ∧ (0 ≤ (5 : Int) →
         exif_decode_rational (fraction_to_string (mkRat 5 3)) = .ok (mkRat 5 3))) :=
  ⟨by decide, claimC9_rational_encode_decode_roundtrip 5 3 (by decide)⟩

/-- C10: for every rational tag kind — the signed kinds (Exif SRational,
Xmp Rational), which accept a negative numerator ("-5/3" decodes to -5/3),
and the unsigned Exif Rational kind alike — a text whose denominator part
carries a minus sign (a slash followed by a minus sign and digits, e.g.
numerator 5 with denominator text -3) is rejected with the owning family's
value error: the sign is only ever permitted on the numerator. -/
theorem claimC10_negative_denominator_rejected (n : Int) (d : Nat) :
    (exif_decode_srational (chars "-5/3") = .ok (-5 / 3 : ℚ)
     ∧ xmp_decode_rational (chars "-5/3") = .ok (-5 / 3 : ℚ))
    ∧ exif_decode_srational (intToStr n ++ '/' :: '-' :: natDigits d)
        = .error .exifValueError
    ∧ exif_decode_rational (intToStr n ++ '/' :: '-' :: natDigits d)
        = .error .exifValueError
    ∧ xmp_decode_rational (intToStr n ++ '/' :: '-' :: natDigits d)
        = .error .xmpValueError := by
  have h := make_fraction_str_neg_den n d
  refine ⟨⟨rfl, rfl⟩, ?_, ?_, ?_⟩
  · unfold exif_decode_srational
    rw [h]
  · unfold exif_decode_rational
    rw [h]
  · unfold xmp_decode_rational
    rw [h]

/-- C4 counterexample: constructing a rational from the wire string "0/0"
does not fail with the division-by-zero error; the repository's test suite
pins that it succeeds and yields the fraction 0/1. -/
theorem claimC4_counterexample : make_fraction_str (chars "0/0") = .ok 0 := rfl

/-- C4 amended: constructing a rational with a zero denominator fails with
the dedicated division-by-zero error — from two integers for every
numerator n, and from a string "n/0" for every numerator n except the
special-cased text "0/0", which succeeds and yields the fraction 0/1.  The
division-by-zero error is distinct from the generic errors raised for
other malformed inputs (ValueError for unparseable text, TypeError for a
non-string non-rational argument). -/
theorem claimC4_zero_denominator (n : Int) :
    make_fraction_ints n 0 = .error .zeroDivisionError
    ∧ (n ≠ 0 →
        make_fraction_str (intToStr n ++ chars "/0") = .error .zeroDivisionError)
    ∧ make_fraction1 .other = .error .typeError
    ∧ make_fraction_str (chars "notafraction") = .error .valueError
    ∧ PyError.zeroDivisionError ≠ PyError.valueError
    ∧ PyError.zeroDivisionError ≠ PyError.typeError := by
  refine ⟨by rw [make_fraction_ints]; simp, fun hn => ?_, rfl, rfl, by decide, by decide⟩
  have h0 : chars "/0" = '/' :: ['0'] := rfl
  rw [h0]
  obtain ⟨ht, hd⟩ := takeWhile_append_slash (intToStr n) ['0'] (intToStr_mem_ne_slash n)
  have hne : intToStr n ++ '/' :: ['0'] ≠ chars "0/0" := by
    intro h
    have hrhs : chars "0/0" = ['0'] ++ '/' :: ['0'] := rfl
    rw [hrhs] at h
    obtain ⟨hhd, -⟩ := List.append_inj' h rfl
    exact hn (intToStr_eq_single_zero n hhd)
  have hpn : parseNat ['0'] = some 0 := by decide
  have hp : parseFracPair (intToStr n ++ '/' :: ['0']) = some (n, 0) := by
    simp only [parseFracPair, ht, hd, parseSigned_intToStr, hpn]
  rw [make_fraction_str, if_neg hne, hp]
  rfl

/-- Witness for C4-amended at the concrete numerator 3. -/
theorem claimC4_witness :
    (3 : Int) ≠ 0 ∧
    (make_fraction_ints 3 0 = .error .zeroDivisionError
     ∧ ((3 : Int) ≠ 0 →
         make_fraction_str (intToStr 3 ++ chars "/0") = .error .zeroDivisionError)
     ∧ make_fraction1 .other = .error .typeError
     ∧ make_fraction_str (chars "notafraction") = .error .valueError
     ∧ PyError.zeroDivisionError ≠ PyError.valueError
     ∧ PyError.zeroDivisionError ≠ PyError.typeError) :=
  ⟨by decide, claimC4_zero_denominator 3⟩

/-! ## GPS coordinates

Models the `GPSCoordinate` value type of the missing module
pyexiv2/utils.py: an immutable degrees/minutes/seconds/direction record
with a validating constructor and a lossy decimal-minutes parse format. -/

/-- A GPS coordinate as stored after successful construction. -/
structure GPSCoordinate where
  degrees : Int
  minutes : Int
  seconds : Int
  direction : Char
deriving DecidableEq

/-- Decimal-digit test used by the wire grammars. -/
def isDigitCh (c : Char) : Bool := decide (48 ≤ c.toNat ∧ c.toNat ≤ 57)

/-- Modelled from the spec: the validating `GPSCoordinate` constructor of
the missing module pyexiv2/utils.py.  The direction must be one of N, S, E,
W; minutes and seconds must lie in 0–59; degrees must be non-negative and
(as pinned by the repository's test, which accepts `GPS(92, 58, 2, 'W')`
but rejects `GPS(91, 58, 2, 'S')`) bounded by 90 for the N/S directions
and by 179 for the E/W directions.  Any violation raises ValueError. -/
def GPSCoordinate.make (degrees minutes seconds : Int) (direction : Char) :
    Except PyError GPSCoordinate :=
  if (direction = 'N' ∨ direction = 'S' ∨ direction = 'E' ∨ direction = 'W')
     ∧ ¬((direction = 'N' ∨ direction = 'S') ∧ (degrees < 0 ∨ 90 < degrees))
     ∧ ¬((direction = 'E' ∨ direction = 'W') ∧ (degrees < 0 ∨ 179 < degrees))
     ∧ ¬(minutes < 0 ∨ 59 < minutes)
     ∧ ¬(seconds < 0 ∨ 59 < seconds) then
    .ok ⟨degrees, minutes, seconds, direction⟩
  else .error .valueError

/-- Exact value of a fractional digit string: the digits read as a decimal
fraction (models Python's `float('.'+digits)` for the digit counts that
occur in GPS minute fractions, where the double is exact enough). -/
def fracVal (ds : List Char) : ℚ :=
  ((parseNatAux ds 0).getD 0 : ℚ) / (10 : ℚ) ^ ds.length

/-- Modelled from the spec: the seconds computation of
`GPSCoordinate.from_string` on the fractional-minutes digit string.  The
spec text says the fractional minute is truncated, but the repository's
test fixture `from_string('54,59.3800N') == GPS(54, 59, 23, 'N')` pins
rounding to the nearest integer (`int(round(fraction * 60))` in the
missing code): truncation would give 22 where the test requires 23.  The
computation is written over naturals; `gps_seconds_eq_round` proves it
equal to the rounded value `floor(fraction * 60 + 1/2)`. -/
def gps_seconds_of_fraction (ds : List Char) : Nat :=
  ((parseNatAux ds 0).getD 0 * 120 + 10 ^ ds.length) / (2 * 10 ^ ds.length)

/-- Modelled from the spec: `GPSCoordinate.from_string` of the missing
module pyexiv2/utils.py.  Accepts `D,M[.ffffff]Dir`: a degrees integer, a
comma, a minutes integer with an optional decimal fraction, and a
one-letter direction with no separator; the parsed components are handed
to the validating constructor.  Malformed text raises ValueError. -/
def gps_from_string (cs : List Char) : Except PyError GPSCoordinate :=
  let degD := cs.takeWhile isDigitCh
  match parseNat degD, cs.dropWhile isDigitCh with
  | some deg, ',' :: cs3 =>
    let minD := cs3.takeWhile isDigitCh
    match parseNat minD, cs3.dropWhile isDigitCh with
    | some minu, '.' :: cs5 =>
      let frD := cs5.takeWhile isDigitCh
      match parseNat frD, cs5.dropWhile isDigitCh with
      | some _, [dir] =>
        GPSCoordinate.make deg minu (gps_seconds_of_fraction frD) dir
      | _, _ => .error .valueError
    | some minu, [dir] => GPSCoordinate.make deg minu 0 dir
    | _, _ => .error .valueError
  | _, _ => .error .valueError

theorem isDigitCh_natDigits (n : Nat) : ∀ c ∈ natDigits n, isDigitCh c = true := by
  intro c hc
  have := natDigits_mem_digit n c hc
  simp [isDigitCh]
  omega

theorem takeWhile_digits_append (xs : List Char) (c : Char) (ys : List Char)
    (hxs : ∀ a ∈ xs, isDigitCh a = true) (hc : isDigitCh c = false) :
    (xs ++ c :: ys).takeWhile isDigitCh = xs ∧
    (xs ++ c :: ys).dropWhile isDigitCh = c :: ys := by
  induction xs with
  | nil => simp [List.takeWhile, List.dropWhile, hc]
  | cons a as ih =>
    have ha := hxs a (List.mem_cons_self a as)
    have has : ∀ b ∈ as, isDigitCh b = true := fun b hb => hxs b (List.mem_cons_of_mem a hb)
    obtain ⟨ih1, ih2⟩ := ih has
    constructor
    · simp [List.takeWhile_cons, ha, ih1]
    · simp [List.dropWhile_cons, ha, ih2]

theorem parseNat_of_digits (ds : List Char) (hne : ds ≠ [])
    (h : ∀ a ∈ ds, isDigitCh a = true) : ∃ v, parseNat ds = some v := by
  have haux : ∀ (es : List Char), (∀ a ∈ es, isDigitCh a = true) →
      ∀ acc, ∃ v, parseNatAux es acc = some v := by
    intro es
    induction es with
    | nil => exact fun _ acc => ⟨acc, rfl⟩
    | cons a as ih =>
      intro hall acc
      have ha := hall a (List.mem_cons_self a as)
      have hd : digitVal a = some (a.toNat - 48) := by
        rw [digitVal, if_pos]
        simp [isDigitCh] at ha
        omega
      rw [parseNatAux, hd]
      exact ih (fun b hb => hall b (List.mem_cons_of_mem a hb)) _
  cases hds : ds with
  | nil => exact absurd hds hne
  | cons a as =>
    rw [parseNat]
    · exact haux (a :: as) (hds ▸ h) 0
    · simp

/-- C5 counterexample: the coordinate (91, 58, 2, 'S') satisfies the
claim's uniform bounds (degrees within 0–179, minutes and seconds within
0–59, direction one of the four letters) yet the constructor raises, while
(92, 58, 2, 'W') succeeds: the accepted degree range does depend on the
direction letter. -/
theorem claimC5_counterexample :
    GPSCoordinate.make 91 58 2 'S' = .error .valueError
    ∧ GPSCoordinate.make 92 58 2 'W' = .ok ⟨92, 58, 2, 'W'⟩
    ∧ (0 ≤ (91 : Int) ∧ (91 : Int) ≤ 179 ∧ 0 ≤ (58 : Int) ∧ (58 : Int) ≤ 59
       ∧ 0 ≤ (2 : Int) ∧ (2 : Int) ≤ 59) := by
  refine ⟨by decide, by decide, by decide⟩

/-- C5 amended: the GPSCoordinate constructor succeeds exactly when the
direction is one of N, S, E, W, minutes and seconds lie within 0–59, and
degrees is non-negative and at most 90 for the N/S directions or at most
179 for the E/W directions: the accepted degree range depends on the
direction letter. -/
theorem claimC5_constructor_bounds (d m s : Int) (dir : Char) :
    (∃ g, GPSCoordinate.make d m s dir = .ok g)
      ↔ ((dir = 'N' ∨ dir = 'S' ∨ dir = 'E' ∨ dir = 'W')
         ∧ 0 ≤ d
         ∧ ((dir = 'N' ∨ dir = 'S') → d ≤ 90)
         ∧ ((dir = 'E' ∨ dir = 'W') → d ≤ 179)
         ∧ 0 ≤ m ∧ m ≤ 59 ∧ 0 ≤ s ∧ s ≤ 59) := by
  rw [GPSCoordinate.make]
  split_ifs with h
  · obtain ⟨hd, h2, h3, h4, h5⟩ := h
    refine ⟨fun _ => ⟨hd, ?_, ?_, ?_, by omega, by omega, by omega, by omega⟩,
      fun _ => ⟨⟨d, m, s, dir⟩, rfl⟩⟩
    · rcases hd with hh | hh | hh | hh
      · have hx : ¬(d < 0 ∨ 90 < d) := fun hx => h2 ⟨Or.inl hh, hx⟩
        omega
      · have hx : ¬(d < 0 ∨ 90 < d) := fun hx => h2 ⟨Or.inr hh, hx⟩
        omega
      · have hx : ¬(d < 0 ∨ 179 < d) := fun hx => h3 ⟨Or.inl hh, hx⟩
        omega
      · have hx : ¬(d < 0 ∨ 179 < d) := fun hx => h3 ⟨Or.inr hh, hx⟩
        omega
    · intro hns
      have hx : ¬(d < 0 ∨ 90 < d) := fun hx => h2 ⟨hns, hx⟩
      omega
    · intro hew
      have hx : ¬(d < 0 ∨ 179 < d) := fun hx => h3 ⟨hew, hx⟩
      omega
  · constructor
    · rintro ⟨g, hg⟩
      exact absurd hg (by simp)
    · rintro ⟨hd, hd0, hns, hew, hm0, hm1, hs0, hs1⟩
      refine absurd ?_ h
      refine ⟨hd, ?_, ?_, by omega, by omega⟩
      · rintro ⟨hns2, hx⟩
        have := hns hns2
        omega
      · rintro ⟨hew2, hx⟩
        have := hew hew2
        omega

/-- Bridge between the natural-number seconds computation used by the
parser and its real-valued reading: it equals the fractional minute times
60, rounded to the nearest integer (half up). -/
theorem gps_seconds_eq_round (ds : List Char) :
    gps_seconds_of_fraction ds = ⌊fracVal ds * 60 + 1 / 2⌋₊ := by
  rw [gps_seconds_of_fraction, fracVal]
  have hpow : ((10 : ℚ) ^ ds.length) ≠ 0 := by positivity
  have h : ((parseNatAux ds 0).getD 0 : ℚ) / (10 : ℚ) ^ ds.length * 60 + 1 / 2
      = (((parseNatAux ds 0).getD 0 * 120 + 10 ^ ds.length : ℕ) : ℚ)
        / ((2 * 10 ^ ds.length : ℕ) : ℚ) := by
    push_cast
    field_simp
    ring
  have hfl : ⌊(((parseNatAux ds 0).getD 0 * 120 + 10 ^ ds.length : ℕ) : ℚ)⌋₊
      = (parseNatAux ds 0).getD 0 * 120 + 10 ^ ds.length := Nat.floor_natCast _
  rw [h, Nat.floor_div_nat, hfl]

/-- C2 counterexample: parsing '54,59.3800N' yields a seconds component of
23, whereas the floor of the fractional minute times 60 is 22 (0.38 times
60 is 22.8): the seconds component is not computed by truncation. -/
theorem claimC2_counterexample :
    gps_from_string (chars "54,59.3800N") = .ok ⟨54, 59, 23, 'N'⟩
    ∧ ⌊fracVal (chars "3800") * 60⌋₊ = 22 := by
  constructor
  · decide
  · have hv : (parseNatAux (chars "3800") 0).getD 0 = 3800 := by decide
    have hl : (chars "3800").length = 4 := by decide
    have heq : ((3800 : ℕ) : ℚ) / (10 : ℚ) ^ 4 * 60 = ((114 : ℕ) : ℚ) / ((5 : ℕ) : ℚ) := by
      push_cast
      norm_num
    rw [fracVal, hv, hl, heq, Nat.floor_div_nat]
    simp

/-- C2 amended: for every well-formed decimal-minutes input D,M.ffffffDir,
from_string splits the minutes field into a whole-minute part and a
fractional-minute digit string and computes the seconds component as the
fractional minutes times 60 rounded to the nearest integer — not its
floor — before handing all components to the validating constructor; in
particular '54,59.3800N' parses with seconds 23 = round(0.38 * 60). -/
theorem claimC2_from_string_decimal_minutes (deg minu : Nat) (frD : List Char)
    (dir : Char) (hne : frD ≠ []) (hdig : ∀ c ∈ frD, isDigitCh c = true)
    (hdir : dir = 'N' ∨ dir = 'S' ∨ dir = 'E' ∨ dir = 'W') :
    gps_from_string (natDigits deg ++ ',' :: (natDigits minu ++ '.' :: (frD ++ [dir])))
      = GPSCoordinate.make deg minu (gps_seconds_of_fraction frD) dir
    ∧ gps_seconds_of_fraction frD = ⌊fracVal frD * 60 + 1 / 2⌋₊ := by
  refine ⟨?_, gps_seconds_eq_round frD⟩
  have hdirD : isDigitCh dir = false := by
    rcases hdir with h | h | h | h <;> subst h <;> decide
  obtain ⟨ht1, hd1⟩ := takeWhile_digits_append (natDigits deg) ','
    (natDigits minu ++ '.' :: (frD ++ [dir])) (isDigitCh_natDigits deg) (by decide)
  obtain ⟨ht2, hd2⟩ := takeWhile_digits_append (natDigits minu) '.'
    (frD ++ [dir]) (isDigitCh_natDigits minu) (by decide)
  obtain ⟨ht3, hd3⟩ := takeWhile_digits_append frD dir [] hdig hdirD
  obtain ⟨v, hfr⟩ := parseNat_of_digits frD hne hdig
  simp only [gps_from_string, ht1, hd1, parseNat_natDigits, ht2, hd2, ht3, hd3, hfr]

/-- Witness for C2-amended at the concrete input '54,59.3800N'. -/
theorem claimC2_witness :
    (chars "3800" ≠ [] ∧ (∀ c ∈ chars "3800", isDigitCh c = true)
     ∧ ('N' = 'N' ∨ 'N' = 'S' ∨ 'N' = 'E' ∨ 'N' = 'W'))
    ∧ (gps_from_string
         (natDigits 54 ++ ',' :: (natDigits 59 ++ '.' :: (chars "3800" ++ ['N'])))
         = GPSCoordinate.make 54 59 (gps_seconds_of_fraction (chars "3800")) 'N'
       ∧ gps_seconds_of_fraction (chars "3800")
         = ⌊fracVal (chars "3800") * 60 + 1 / 2⌋₊) :=
  ⟨⟨by decide, by decide, by decide⟩,
   claimC2_from_string_decimal_minutes 54 59 (chars "3800") 'N'
     (by decide) (by decide) (by decide)⟩

/-! ## Profile-C (XMP) date and time formatting

Models `DateTimeFormatter.xmp` of the missing module pyexiv2/utils.py and
the Xmp tag family's Date serialisation built on it.  Python datetimes are
embedded with explicit calendar fields and an optional fixed UTC offset in
minutes (`none` models a naive datetime). -/

/-- A Python `datetime.date`. -/
structure PyDate where
  year : Nat
  month : Nat
  day : Nat
deriving DecidableEq

/-- A Python `datetime.datetime` whose `tzinfo`, when present, is a
`FixedOffset` carrying a whole number of minutes from UTC. -/
structure PyDatetime where
  year : Nat
  month : Nat
  day : Nat
  hour : Nat
  minute : Nat
  second : Nat
  microsecond : Nat
  tz : Option Int
deriving DecidableEq

/-- Argument shapes accepted by a date/time formatter: a date, a datetime,
or some other Python object (which must raise TypeError). -/
inductive PyTimestamp
  | date (d : PyDate)
  | datetime (dt : PyDatetime)
  | other
deriving DecidableEq

/-- Left-pads the decimal digits of a number with zeros to a given width
(models Python's zero-filled strftime fields and `'%06d'`). -/
def padZeros (w n : Nat) : List Char :=
  List.replicate (w - (natDigits n).length) '0' ++ natDigits n

/-- Drops trailing '0' characters (the trimming the Xmp Date serialisation
applies to the zero-padded microseconds field, via float formatting in the
missing code). -/
def stripZerosRight (cs : List Char) : List Char :=
  (cs.reverse.dropWhile (fun c => c == '0')).reverse

/-- Modelled from the spec: the offset-to-string helper of the missing
module pyexiv2/utils.py, on a whole number of minutes: emits a mandatory
sign, then zero-padded hours and minutes. -/
def timedelta_to_offset (m : Int) : List Char :=
  if m < 0 then '-' :: (padZeros 2 ((-m).toNat / 60) ++ ':' :: padZeros 2 ((-m).toNat % 60))
  else '+' :: (padZeros 2 (m.toNat / 60) ++ ':' :: padZeros 2 (m.toNat % 60))

/-- The `YYYY-MM-DD` date part of the Profile-C form. -/
def xmpDatePart (y mo d : Nat) : List Char :=
  padZeros 4 y ++ '-' :: (padZeros 2 mo ++ '-' :: padZeros 2 d)

/-- Timezone suffix of the Profile-C form: `Z` for a naive datetime or an
explicit zero offset, otherwise the signed `±HH:MM` offset (the
repository's test pins that an explicit UTC offset also prints as `Z`). -/
def xmpTzPart (tz : Option Int) : List Char :=
  match tz with
  | none => ['Z']
  | some m => if m = 0 then ['Z'] else timedelta_to_offset m

/-- Modelled from the spec: `DateTimeFormatter.xmp` of the missing module
pyexiv2/utils.py, the Profile-C (XMP) formatter.  A bare date, or a
datetime at exactly midnight with no (or zero) offset, prints as
`YYYY-MM-DD`; otherwise precision grows with the populated fields; the
spec's sentence that the non-zero microseconds field is printed zero-padded
to 6 digits with no trimming is contradicted by the repository's test
`test_convert_to_string_date`, which pins microseconds 124300 printing as
`.1243`: the field is the 6-digit zero-padded value with trailing zeros
trimmed. -/
def DateTimeFormatter.xmp : PyTimestamp → Except PyError (List Char)
  | .date d => .ok (xmpDatePart d.year d.month d.day)
  | .datetime dt =>
    if dt.hour = 0 ∧ dt.minute = 0 ∧ dt.second = 0 ∧ dt.microsecond = 0
       ∧ (dt.tz = none ∨ dt.tz = some 0) then
      .ok (xmpDatePart dt.year dt.month dt.day)
    else if dt.second = 0 ∧ dt.microsecond = 0 then
      .ok (xmpDatePart dt.year dt.month dt.day
        ++ 'T' :: (padZeros 2 dt.hour ++ ':' :: padZeros 2 dt.minute)
        ++ xmpTzPart dt.tz)
    else if dt.microsecond = 0 then
      .ok (xmpDatePart dt.year dt.month dt.day
        ++ 'T' :: (padZeros 2 dt.hour ++ ':' :: padZeros 2 dt.minute
                   ++ ':' :: padZeros 2 dt.second)
        ++ xmpTzPart dt.tz)
    else
      .ok (xmpDatePart dt.year dt.month dt.day
        ++ 'T' :: (padZeros 2 dt.hour ++ ':' :: padZeros 2 dt.minute
                   ++ ':' :: padZeros 2 dt.second)
        ++ '.' :: stripZerosRight (padZeros 6 dt.microsecond)
        ++ xmpTzPart dt.tz)
  | .other => .error .typeError

/-- C3 counterexample: formatting the datetime 1999-10-13 05:03:27.124300
UTC through the Profile-C (XMP) formatter emits the fractional-second
field `.1243`, not the claim's untrimmed `.124300`. -/
theorem claimC3_counterexample :
    DateTimeFormatter.xmp
        (.datetime ⟨1999, 10, 13, 5, 3, 27, 124300, some 0⟩)
      = .ok (chars "1999-10-13T05:03:27.1243Z")
    ∧ DateTimeFormatter.xmp
        (.datetime ⟨1999, 10, 13, 5, 3, 27, 124300, some 0⟩)
      ≠ .ok (chars "1999-10-13T05:03:27.124300Z") := by
  refine ⟨by decide, by decide⟩

theorem head_dropWhile_ne_zero :
    ∀ l : List Char, (l.dropWhile (fun c => c == '0')).head? ≠ some '0' := by
  intro l
  induction l with
  | nil => simp [List.dropWhile]
  | cons c cs ih =>
    rw [List.dropWhile_cons]
    split
    · exact ih
    · rename_i hc
      simp only [List.head?_cons, ne_eq, Option.some.injEq]
      intro h
      exact hc (by rw [h]; rfl)

/-- C3 amended: for every datetime carrying a non-zero microsecond
component, the Profile-C (XMP) formatter emits a fractional-second field
equal to the microsecond integer zero-padded to 6 digits WITH trailing
zeros trimmed (so the emitted field never ends in a '0' character); for
example microseconds 124300 format as '.1243', not '.124300'. -/
theorem claimC3_microseconds_trimmed (y mo d h mi s us : Nat) (tz : Option Int)
    (hus : 0 < us) :
    DateTimeFormatter.xmp (.datetime ⟨y, mo, d, h, mi, s, us, tz⟩)
      = .ok (xmpDatePart y mo d
          ++ 'T' :: (padZeros 2 h ++ ':' :: padZeros 2 mi ++ ':' :: padZeros 2 s)
          ++ '.' :: stripZerosRight (padZeros 6 us)
          ++ xmpTzPart tz)
    ∧ (stripZerosRight (padZeros 6 us)).getLast? ≠ some '0' := by
  constructor
  · simp only [DateTimeFormatter.xmp]
    rw [if_neg (fun hcon => absurd hcon.2.2.2.1 (by omega)),
      if_neg (fun hcon => absurd hcon.2 (by omega)),
      if_neg (fun hcon => absurd hcon (by omega))]
  · rw [stripZerosRight, List.getLast?_reverse]
    exact head_dropWhile_ne_zero _

/-- Witness for C3-amended at the concrete test datetime. -/
theorem claimC3_witness :
    0 < 124300
    ∧ (DateTimeFormatter.xmp (.datetime ⟨1999, 10, 13, 5, 3, 27, 124300, some 0⟩)
        = .ok (xmpDatePart 1999 10 13
            ++ 'T' :: (padZeros 2 5 ++ ':' :: padZeros 2 3 ++ ':' :: padZeros 2 27)
            ++ '.' :: stripZerosRight (padZeros 6 124300)
            ++ xmpTzPart (some 0))
       ∧ (stripZerosRight (padZeros 6 124300)).getLast? ≠ some '0') :=
  ⟨by decide, claimC3_microseconds_trimmed 1999 10 13 5 3 27 124300 (some 0) (by decide)⟩

/-! ## Profile-A (Exif) Ascii timestamp decoding

Models the `ExifTag._convert_to_python` path for the `Ascii` type on a
recognised timestamp key (such as Exif.Image.DateTime) of the missing
module pyexiv2/exif.py. -/

/-- Gregorian leap-year test, as used by Python's `datetime` validation. -/
def isLeapYear (y : Nat) : Bool :=
  decide (y % 4 = 0) && (decide (y % 100 ≠ 0) || decide (y % 400 = 0))

/-- Number of days in a month of the proleptic Gregorian calendar. -/
def daysInMonth (y mo : Nat) : Nat :=
  if mo = 1 ∨ mo = 3 ∨ mo = 5 ∨ mo = 7 ∨ mo = 8 ∨ mo = 10 ∨ mo = 12 then 31
  else if mo = 4 ∨ mo = 6 ∨ mo = 9 ∨ mo = 11 then 30
  else if mo = 2 then (if isLeapYear y then 29 else 28)
  else 0

/-- Field validity of a calendar datetime, as enforced by Python's
`datetime.datetime` constructor (and hence by `strptime`). -/
def validDatetime (y mo d h mi s : Nat) : Bool :=
  decide (1 ≤ y) && decide (y ≤ 9999) && decide (1 ≤ mo) && decide (mo ≤ 12)
    && decide (1 ≤ d) && decide (d ≤ daysInMonth y mo)
    && decide (h ≤ 23) && decide (mi ≤ 59) && decide (s ≤ 59)

/-- Reads exactly `k` decimal digits, returning their value and the rest of
the input. -/
def readDigits : Nat → Nat → List Char → Option (Nat × List Char)
  | 0, acc, cs => some (acc, cs)
  | k + 1, acc, c :: rest =>
    match digitVal c with
    | some d => readDigits k (acc * 10 + d) rest
    | none => none
  | _ + 1, _, [] => none

/-- Consumes one expected character. -/
def expectCh (c : Char) : List Char → Option (List Char)
  | x :: rest => if x = c then some rest else none
  | [] => none

/-- Parses one fixed Profile-A datetime pattern: a zero-filled
`YYYYsMMsDD tHH:MM:SS` with the given date separator and date/time
separator, optionally requiring a trailing `Z`, with calendar validation
(models one `datetime.strptime` attempt of the missing code). -/
def parseDTPattern (sepDate sepTime : Char) (withZ : Bool) (cs : List Char) :
    Option PyDatetime := do
  let (y, r1) ← readDigits 4 0 cs
  let r2 ← expectCh sepDate r1
  let (mo, r3) ← readDigits 2 0 r2
  let r4 ← expectCh sepDate r3
  let (d, r5) ← readDigits 2 0 r4
  let r6 ← expectCh sepTime r5
  let (h, r7) ← readDigits 2 0 r6
  let r8 ← expectCh ':' r7
  let (mi, r9) ← readDigits 2 0 r8
  let r10 ← expectCh ':' r9
  let (s, r11) ← readDigits 2 0 r10
  let r12 ← if withZ then expectCh 'Z' r11 else some r11
  match r12 with
  | [] => if validDatetime y mo d h mi s then some ⟨y, mo, d, h, mi, s, 0, none⟩ else none
  | _ => none

/-- Modelled from the spec: the Profile-A datetime parser of the missing
module pyexiv2/exif.py: the three accepted patterns are tried in turn
(`YYYY:MM:DD HH:MM:SS`, `YYYY-MM-DD HH:MM:SS`, `YYYY-MM-DDTHH:MM:SSZ`);
bad calendar values or wrong separators make every pattern fail. -/
def parseProfileA_datetime (cs : List Char) : Option PyDatetime :=
  (parseDTPattern ':' ' ' false cs) <|> (parseDTPattern '-' ' ' false cs)
    <|> (parseDTPattern '-' 'T' true cs)

/-- Python value decoded from an Exif Ascii raw text. -/
inductive ExifPyValue
  | str (cs : List Char)
  | datetime (dt : PyDatetime)
deriving DecidableEq

/-- Modelled from the spec: `ExifTag._convert_to_python` of the missing
module pyexiv2/exif.py for type `Ascii` on a recognised timestamp key:
attempt the Profile-A datetime parse and on failure return the original
string unchanged.  The model is a total function: the fallback never
raises. -/
def exif_decode_ascii_datetime (raw : List Char) : ExifPyValue :=
  match parseProfileA_datetime raw with
  | some dt => .datetime dt
  | none => .str raw

/-- C6: on a recognised timestamp key under Profile A, the raw text
'2009:03:01 12:46:51' and its '-'-separated and 'T...Z' variants decode to
the naive datetime (2009, 3, 1, 12, 46, 51); an invalid calendar month
such as 13 falls back to the unchanged original string, a bare date form
on the datetime key likewise stays a string, and in general every input
on which the Profile-A parse fails decodes to the original string
unchanged (the decoder is a total function: it never raises). -/
theorem claimC6_ascii_timestamp_decode :
    exif_decode_ascii_datetime (chars "2009:03:01 12:46:51")
      = .datetime ⟨2009, 3, 1, 12, 46, 51, 0, none⟩
    ∧ exif_decode_ascii_datetime (chars "2009-03-01 12:46:51")
      = .datetime ⟨2009, 3, 1, 12, 46, 51, 0, none⟩
    ∧ exif_decode_ascii_datetime (chars "2009-03-01T12:46:51Z")
      = .datetime ⟨2009, 3, 1, 12, 46, 51, 0, none⟩
    ∧ exif_decode_ascii_datetime (chars "2009-13-01 12:46:51")
      = .str (chars "2009-13-01 12:46:51")
    ∧ exif_decode_ascii_datetime (chars "2009-12-01") = .str (chars "2009-12-01")
    ∧ ∀ cs : List Char, parseProfileA_datetime cs = none →
        exif_decode_ascii_datetime cs = .str cs := by
  refine ⟨by decide, by decide, by decide, by decide, by decide, fun cs h => ?_⟩
  simp only [exif_decode_ascii_datetime, h]

/-- Witness for C6 at the unparseable input with calendar month 13. -/
theorem claimC6_witness :
    parseProfileA_datetime (chars "2009-13-01 12:46:51") = none
    ∧ exif_decode_ascii_datetime (chars "2009-13-01 12:46:51")
      = .str (chars "2009-13-01 12:46:51") :=
  ⟨by decide,
   claimC6_ascii_timestamp_decode.2.2.2.2.2 (chars "2009-13-01 12:46:51") (by decide)⟩

/-! ## Exif Comment charset-tagged encoding

Models the `ExifTag._convert_to_string` path for the `Comment` type of the
missing module pyexiv2/exif.py: an optional embedded charset marker is
recognised on the input string itself; the two narrow ASCII-only charsets
cannot encode non-ASCII payloads and yield the sentinel None. -/

theorem takeWhile_ne_append (p : Char → Bool) (xs : List Char) (c : Char)
    (ys : List Char) (hxs : ∀ a ∈ xs, p a = true) (hc : p c = false) :
    (xs ++ c :: ys).takeWhile p = xs ∧ (xs ++ c :: ys).dropWhile p = c :: ys := by
  induction xs with
  | nil => simp [List.takeWhile, List.dropWhile, hc]
  | cons a as ih =>
    have ha := hxs a (List.mem_cons_self a as)
    have has : ∀ b ∈ as, p b = true := fun b hb => hxs b (List.mem_cons_of_mem a hb)
    obtain ⟨ih1, ih2⟩ := ih has
    constructor
    · simp [List.takeWhile_cons, ha, ih1]
    · simp [List.dropWhile_cons, ha, ih2]

/-- True on characters outside the ASCII range. -/
def nonAsciiCh (c : Char) : Bool := decide (128 ≤ c.toNat)

/-- Recognises an embedded charset marker at the front of a Comment value:
for an input of the form `charset="Name" payload` returns the name and the
payload (models the `startswith('charset=')` / split logic of the missing
code). -/
def extractCommentCharset (cs : List Char) : Option (List Char × List Char) :=
  if cs.take 9 = chars "charset=" ++ ['"'] then
    let rest := cs.drop 9
    match rest.dropWhile (fun c => c != '"') with
    | '"' :: ' ' :: payload => some (rest.takeWhile (fun c => c != '"'), payload)
    | _ => none
  else none

/-- Modelled from the spec: the Exif Comment encoder of the missing module
pyexiv2/exif.py.  If the input string itself carries a charset marker
naming one of the two narrow ASCII-only charsets (Ascii or Jis) and the
payload contains a non-ASCII character, the sentinel None is returned
instead of raising; otherwise the text (with any marker re-prepended)
encodes successfully.  The byte-level UTF-8 serialisation is abstracted as
the character sequence itself. -/
def exif_encode_comment (v : List Char) : Option (List Char) :=
  match extractCommentCharset v with
  | some (name, payload) =>
    if (name = chars "Ascii" ∨ name = chars "Jis") ∧ payload.any nonAsciiCh then
      none
    else some v
  | none => some v

theorem extractCommentCharset_mk (name payload : List Char)
    (hq : ∀ c ∈ name, (c != '"') = true) :
    extractCommentCharset (chars "charset=" ++ '"' :: (name ++ '"' :: ' ' :: payload))
      = some (name, payload) := by
  have hlen : (chars "charset=" ++ ['"']).length = 9 := by decide
  have htake : (chars "charset=" ++ '"' :: (name ++ '"' :: ' ' :: payload)).take 9
      = chars "charset=" ++ ['"'] := by
    have hshape : chars "charset=" ++ '"' :: (name ++ '"' :: ' ' :: payload)
        = (chars "charset=" ++ ['"']) ++ (name ++ '"' :: ' ' :: payload) := by
      simp
    rw [hshape, ← hlen, List.take_left]
  have hdrop : (chars "charset=" ++ '"' :: (name ++ '"' :: ' ' :: payload)).drop 9
      = name ++ '"' :: ' ' :: payload := by
    have hshape : chars "charset=" ++ '"' :: (name ++ '"' :: ' ' :: payload)
        = (chars "charset=" ++ ['"']) ++ (name ++ '"' :: ' ' :: payload) := by
      simp
    rw [hshape, ← hlen, List.drop_left]
  obtain ⟨ht, hd⟩ := takeWhile_ne_append (fun c => c != '"') name '"'
    (' ' :: payload) hq (by decide)
  rw [extractCommentCharset, if_pos htake]
  simp only [hdrop, hd, ht]

/-- C7: encoding an Exif Comment whose input string declares one of the
two narrow ASCII-only charsets (Ascii or Jis) while the payload contains a
non-ASCII character returns the sentinel None instead of raising, whereas
the same non-ASCII payload under any other charset name (such as Unicode,
Undefined, or an unrecognised name) encodes successfully with the charset
marker re-prepended, as does a marker-less value. -/
theorem claimC7_comment_charset_sentinel (payload : List Char)
    (hpl : payload.any nonAsciiCh = true) (name : List Char)
    (hname1 : name ≠ chars "Ascii") (hname2 : name ≠ chars "Jis")
    (hq : ∀ c ∈ name, (c != '"') = true) :
    exif_encode_comment (chars "charset=" ++ '"' :: (chars "Ascii" ++ '"' :: ' ' :: payload))
      = none
    ∧ exif_encode_comment (chars "charset=" ++ '"' :: (chars "Jis" ++ '"' :: ' ' :: payload))
      = none
    ∧ exif_encode_comment (chars "charset=" ++ '"' :: (name ++ '"' :: ' ' :: payload))
      = some (chars "charset=" ++ '"' :: (name ++ '"' :: ' ' :: payload)) := by
  refine ⟨?_, ?_, ?_⟩
  · rw [exif_encode_comment, extractCommentCharset_mk (chars "Ascii") payload (by decide)]
    exact if_pos ⟨Or.inl rfl, hpl⟩
  · rw [exif_encode_comment, extractCommentCharset_mk (chars "Jis") payload (by decide)]
    exact if_pos ⟨Or.inr rfl, hpl⟩
  · rw [exif_encode_comment, extractCommentCharset_mk name payload hq]
    exact if_neg (fun hcon => hcon.1.elim hname1 hname2)

/-- Witness for C7 at the payload 'déjà vu' under the charset Unicode. -/
theorem claimC7_witness :
    ((chars "déjà vu").any nonAsciiCh = true
     ∧ chars "Unicode" ≠ chars "Ascii" ∧ chars "Unicode" ≠ chars "Jis"
     ∧ (∀ c ∈ chars "Unicode", (c != '"') = true))
    ∧ (exif_encode_comment
         (chars "charset=" ++ '"' :: (chars "Ascii" ++ '"' :: ' ' :: chars "déjà vu"))
         = none
       ∧ exif_encode_comment
           (chars "charset=" ++ '"' :: (chars "Jis" ++ '"' :: ' ' :: chars "déjà vu"))
         = none
       ∧ exif_encode_comment
           (chars "charset=" ++ '"' :: (chars "Unicode" ++ '"' :: ' ' :: chars "déjà vu"))
         = some (chars "charset=" ++ '"' :: (chars "Unicode" ++ '"' :: ' ' :: chars "déjà vu"))) :=
  ⟨⟨by decide, by decide, by decide, by decide⟩,
   claimC7_comment_charset_sentinel (chars "déjà vu") (by decide) (chars "Unicode")
     (by decide) (by decide) (by decide)⟩

/-! ## Iptc tag value assignment

Models `IptcTag._set_value` and the `Date` serialisation of the missing
module pyexiv2/iptc.py: Iptc values are always list-valued and some keys
are declared non-repeatable by the external tag metadata. -/

/-- A host value assigned into one slot of an Iptc tag. -/
inductive IptcValue
  | str (cs : List Char)
  | date (d : PyDate)
deriving DecidableEq

/-- Static description of an Iptc tag: its key, declared wire type and
the externally declared repeatability. -/
structure IptcTagSpec where
  key : String
  type : String
  repeatable : Bool

/-- Modelled from the spec: the per-element Iptc serialisation of the
missing module pyexiv2/iptc.py for the types the claims exercise:
`Date` values print in the Profile-B `YYYY-MM-DD` form (a non-date value
is a shape error), `String` values pass through. -/
def iptc_convert_to_string (ty : String) (v : IptcValue) : Except PyError (List Char) :=
  if ty = "Date" then
    match v with
    | .date d => .ok (padZeros 4 d.year ++ '-' :: (padZeros 2 d.month ++ '-' :: padZeros 2 d.day))
    | _ => .error .typeError
  else
    match v with
    | .str cs => .ok cs
    | _ => .error .typeError

/-- Shapes an assignment to `IptcTag.value` can take. -/
inductive IptcAssign
  | list (xs : List IptcValue)
  | nonList
deriving DecidableEq

/-- Modelled from the spec: `IptcTag._set_value` of the missing module
pyexiv2/iptc.py: a non-list assignment raises TypeError for every key;
a list of length greater than one assigned to a non-repeatable key raises
the dedicated ValueError; otherwise every element is serialised. -/
def IptcTag.set_value (t : IptcTagSpec) (v : IptcAssign) :
    Except PyError (List (List Char)) :=
  match v with
  | .nonList => .error .typeError
  | .list xs =>
    if t.repeatable = false ∧ 1 < xs.length then .error .valueError
    else xs.mapM (iptc_convert_to_string t.type)

/-- The Iptc.Application2.ReleaseDate tag: type Date, declared
non-repeatable by the external Iptc tag metadata (as exercised by the
repository's test test_set_value_non_repeatable). -/
def releaseDateTag : IptcTagSpec :=
  { key := "Iptc.Application2.ReleaseDate", type := "Date", repeatable := false }

/-- C8: for an IptcTag whose key is declared non-repeatable, assigning a
list of length greater than 1 raises the dedicated non-repeatable value
error, while assigning a 1-element list succeeds (shown for ReleaseDate
with one date value); and for every Iptc tag, assigning a non-list value
raises a type error. -/
theorem claimC8_non_repeatable (t : IptcTagSpec) (xs : List IptcValue)
    (hrep : t.repeatable = false) (hlen : 1 < xs.length) :
    IptcTag.set_value t (.list xs) = .error .valueError
    ∧ (∀ u : IptcTagSpec, IptcTag.set_value u .nonList = .error .typeError)
    ∧ IptcTag.set_value releaseDateTag (.list [.date ⟨2009, 3, 1⟩])
      = .ok [chars "2009-03-01"]
    ∧ PyError.valueError ≠ PyError.typeError := by
  refine ⟨?_, fun u => rfl, by decide, by decide⟩
  simp only [IptcTag.set_value]
  rw [if_pos ⟨hrep, hlen⟩]

/-- Witness for C8 at the ReleaseDate tag with a 2-element list. -/
theorem claimC8_witness :
    (releaseDateTag.repeatable = false
     ∧ 1 < ([IptcValue.date ⟨2009, 3, 1⟩, IptcValue.date ⟨2009, 3, 2⟩] : List IptcValue).length)
    ∧ (IptcTag.set_value releaseDateTag
         (.list [IptcValue.date ⟨2009, 3, 1⟩, IptcValue.date ⟨2009, 3, 2⟩])
         = .error .valueError
       ∧ (∀ u : IptcTagSpec, IptcTag.set_value u .nonList = .error .typeError)
       ∧ IptcTag.set_value releaseDateTag (.list [.date ⟨2009, 3, 1⟩])
         = .ok [chars "2009-03-01"]
       ∧ PyError.valueError ≠ PyError.typeError) :=
  ⟨⟨rfl, by decide⟩,
   claimC8_non_repeatable releaseDateTag
     [IptcValue.date ⟨2009, 3, 1⟩, IptcValue.date ⟨2009, 3, 2⟩] rfl (by decide)⟩

/-! ## The notifying sequence

Models `NotifyingList` and `ListenerInterface` of the missing module
pyexiv2/utils.py: a mutable ordered sequence that, after every successful
structural mutation, invokes each registered listener's contents-changed
callback once, in registration order.  A listener is embedded either as a
change counter (the test suite's SimpleListener) or as a callback that
raises NotImplementedError (the bare ListenerInterface). -/

/-- A registered listener: a counting callback or a raising one. -/
inductive Listener
  | counter (changes : Nat)
  | raiser
deriving DecidableEq

/-- A notifying sequence: the underlying items and the registered
listeners in registration order. -/
structure NotifyingList where
  items : List Int
  listeners : List Listener
deriving DecidableEq

/-- Runs every listener's contents-changed callback in registration order:
counters increment, and a raising listener stops the fan-out and
propagates its exception (listeners after it are not invoked). -/
def notifyAll : List Listener → List Listener × Option PyError
  | [] => ([], none)
  | .raiser :: rest => (.raiser :: rest, some .notImplementedError)
  | .counter n :: rest =>
    let r := notifyAll rest
    (.counter (n + 1) :: r.1, r.2)

/-- One invocation of a listener's callback, as reflected in its state. -/
def bumpListener : Listener → Listener
  | .counter n => .counter (n + 1)
  | .raiser => .raiser

/-- Python sequence index resolution: negative indices count from the end
and out-of-range indices are errors. -/
def pyIndex (i : Int) (len : Nat) : Option Nat :=
  let j := if i < 0 then i + len else i
  if 0 ≤ j ∧ j < len then some j.toNat else none

/-- Python slice bound resolution: negative bounds count from the end and
bounds are clamped into the sequence. -/
def pySliceBound (i : Int) (len : Nat) : Nat :=
  if i < 0 then (if i + len < 0 then 0 else (i + len).toNat) else min i.toNat len

/-- Python slice assignment `l[i:j] = xs` (with `xs = []` this is slice
deletion): the slice bounds are resolved with their usual defaults and the
selected range, possibly empty, is replaced. -/
def pySetSlice (i j : Option Int) (xs l : List Int) : List Int :=
  let a := match i with | none => 0 | some i => pySliceBound i l.length
  let b := match j with | none => l.length | some j => pySliceBound j l.length
  l.take a ++ xs ++ l.drop (max a b)

/-- Python `list.insert` position clamping. -/
def pyInsertPos (i : Int) (len : Nat) : Nat :=
  let j := if i < 0 then i + len else i
  if j < 0 then 0 else min j.toNat len

/-- Removes the first occurrence of a value, failing when absent (models
`list.remove`). -/
def removeFirst (v : Int) : List Int → Option (List Int)
  | [] => none
  | x :: rest => if x = v then some rest else (removeFirst v rest).map (fun l => x :: l)

/-- The structural mutations of the notifying sequence: item and slice
assignment and deletion, append, extend, insert, pop, remove, reverse,
sort, in-place add and in-place multiply. -/
inductive MutOp
  | setitem (i : Int) (v : Int)
  | delitem (i : Int)
  | setslice (i j : Option Int) (xs : List Int)
  | delslice (i j : Option Int)
  | append (v : Int)
  | extend (xs : List Int)
  | insert (i : Int) (v : Int)
  | pop (i : Int)
  | remove (v : Int)
  | reverse
  | sort
  | iadd (xs : List Int)
  | imul (n : Int)

/-- The underlying Python list semantics of each mutation: `none` models
the operation raising (index or value error) before any mutation. -/
def applyOp : MutOp → List Int → Option (List Int)
  | .setitem i v, l => (pyIndex i l.length).map (fun j => l.set j v)
  | .delitem i, l => (pyIndex i l.length).map (fun j => l.eraseIdx j)
  | .setslice i j xs, l => some (pySetSlice i j xs l)
  | .delslice i j, l => some (pySetSlice i j [] l)
  | .append v, l => some (l ++ [v])
  | .extend xs, l => some (l ++ xs)
  | .insert i v, l =>
    some (l.take (pyInsertPos i l.length) ++ v :: l.drop (pyInsertPos i l.length))
  | .pop i, l => (pyIndex i l.length).map (fun j => l.eraseIdx j)
  | .remove v, l => removeFirst v l
  | .reverse, l => some l.reverse
  | .sort, l => some (List.insertionSort (fun a b => a ≤ b) l)
  | .iadd xs, l => some (l ++ xs)
  | .imul n, l => some (if n ≤ 0 then [] else (List.replicate n.toNat l).flatten)

/-- The Python exception raised when a mutation itself fails. -/
def opError : MutOp → PyError
  | .remove _ => .valueError
  | _ => .indexError

/-- Modelled from the spec: a structural mutation of `NotifyingList` of
the missing module pyexiv2/utils.py.  The underlying list operation runs
first; if it raises, nothing changes and no listener is notified; once the
mutation has taken effect every registered listener is notified exactly
once in registration order, and a listener's own exception propagates
without rolling the mutation back. -/
def NotifyingList.run (op : MutOp) (s : NotifyingList) :
    NotifyingList × Option PyError :=
  match applyOp op s.items with
  | none => (s, some (opError op))
  | some items2 =>
    let r := notifyAll s.listeners
    (⟨items2, r.1⟩, r.2)

theorem notifyAll_counters (L : List Listener)
    (h : ∀ l ∈ L, ∃ n, l = .counter n) :
    notifyAll L = (L.map bumpListener, none) := by
  induction L with
  | nil => rfl
  | cons a rest ih =>
    obtain ⟨n, hn⟩ := h a (List.mem_cons_self a rest)
    subst hn
    have ih2 := ih (fun l hl => h l (List.mem_cons_of_mem _ hl))
    simp [notifyAll, ih2, bumpListener]

/-- C1: every mutating operation of the notifying sequence that completes
without raising leaves the sequence in the mutated state and triggers the
notification fan-out: when no listener raises, every registered listener's
contents-changed callback is invoked exactly once (each change counter
increments by exactly one) and the call returns normally; the mutated
state is reached even when a listener's callback raises (the mutation is
not rolled back, which is what "notified after the mutation has taken
effect" means observationally); and a slice deletion with zero net change
(such as deleting the empty slice i..i) still counts as a completing
mutation, hence still notifies exactly once per call. -/
theorem claimC1_notify_exactly_once (op : MutOp) (s : NotifyingList)
    (items2 : List Int) (happly : applyOp op s.items = some items2) :
    (NotifyingList.run op s).1.items = items2
    ∧ ((∀ l ∈ s.listeners, ∃ n, l = .counter n) →
        (NotifyingList.run op s).1.listeners = s.listeners.map bumpListener
        ∧ (NotifyingList.run op s).2 = none)
    ∧ (∀ i : Int, applyOp (MutOp.delslice (some i) (some i)) s.items
        = some s.items) := by
  refine ⟨?_, fun hc => ⟨?_, ?_⟩, fun i => ?_⟩
  · simp [NotifyingList.run, happly]
  · simp [NotifyingList.run, happly, notifyAll_counters s.listeners hc]
  · simp [NotifyingList.run, happly, notifyAll_counters s.listeners hc]
  · simp only [applyOp, pySetSlice]
    rw [max_self]
    simp [List.take_append_drop]

/-- Witness for C1: deleting the empty slice 2..2 of a concrete sequence
with three registered counting listeners. -/
theorem claimC1_witness :
    applyOp (MutOp.delslice (some 2) (some 2)) [5, 7, 9, 14, 57, 3, 2]
      = some [5, 7, 9, 14, 57, 3, 2]
    ∧ ((NotifyingList.run (MutOp.delslice (some 2) (some 2))
          ⟨[5, 7, 9, 14, 57, 3, 2],
           [.counter 0, .counter 0, .counter 0]⟩).1.items
        = [5, 7, 9, 14, 57, 3, 2]
       ∧ ((∀ l ∈ ([.counter 0, .counter 0, .counter 0] : List Listener),
            ∃ n, l = .counter n) →
          (NotifyingList.run (MutOp.delslice (some 2) (some 2))
             ⟨[5, 7, 9, 14, 57, 3, 2],
              [.counter 0, .counter 0, .counter 0]⟩).1.listeners
            = ([.counter 0, .counter 0, .counter 0] : List Listener).map bumpListener
          ∧ (NotifyingList.run (MutOp.delslice (some 2) (some 2))
               ⟨[5, 7, 9, 14, 57, 3, 2],
                [.counter 0, .counter 0, .counter 0]⟩).2 = none)
       ∧ (∀ i : Int,
            applyOp (MutOp.delslice (some i) (some i)) [5, 7, 9, 14, 57, 3, 2]
              = some [5, 7, 9, 14, 57, 3, 2])) :=
  ⟨by decide,
   claimC1_notify_exactly_once (MutOp.delslice (some 2) (some 2))
     ⟨[5, 7, 9, 14, 57, 3, 2], [.counter 0, .counter 0, .counter 0]⟩
     [5, 7, 9, 14, 57, 3, 2] (by decide)⟩

end Cyexiv2
